import Mathlib

/-!
Verification development for `bindilla/host_http_server.py`, the HTTP gateway
in front of the external session launcher ("Host").

The Python module is embedded shallowly:

* tornado response headers are ordered `(name, value)` lists;
* `HOST` (the external collaborator, per spec section 6) is a parameter of
  each handler function, so handler behaviour is quantified over every
  possible Host outcome;
* the tornado routing regexes are translated, pattern by pattern, into
  executable matchers over `List Char` that follow Python `re` semantics for
  the constructs the source uses: a lazy `.*?` scan that tries the earliest
  position first and cannot cross a newline, greedy character classes
  `[^@]+` / `[^\/]+`, the dot classes `.*` / `.+` which exclude `'\n'`, and
  the anchor `$` which accepts either end-of-input or a single trailing
  newline (tornado appends `$` to every route pattern that lacks one);
* fallible Host calls are `Except` values; bytes are `List Nat`.
-/

set_option autoImplicit false

namespace Bindilla

/-- Response/request headers: an ordered list of name/value pairs, as stored by
tornado's `HTTPHeaders`.  Tornado normalizes header names to canonical
`Camel-Dash` spelling when parsing, so lookups use the canonical name. -/
abbrev Headers := List (String × String)

/-- Tornado's `HTTPHeaders.get(name, default)`: the value stored under `name`, or the
default when the header is absent. -/
def hget : Headers → String → String → String
  | [], _, dflt => dflt
  | (k, v) :: t, name, dflt => if k = name then v else hget t name dflt

/-- Translation of `BaseHandler.set_default_headers`: the headers every
response starts with.  `tornadoVersion` stands for the ambient
`tornado.version` string.  The `Access-Control-Allow-Origin` value echoes the
request's `Origin` header, defaulting to the empty string when absent. -/
def BaseHandler.set_default_headers (tornadoVersion : String) (reqHeaders : Headers) : Headers :=
  [("Server", "Bindilla / Tornado " ++ tornadoVersion),
   ("Content-Type", "application/json"),
   ("Access-Control-Allow-Origin", hget reqHeaders "Origin" ""),
   ("Access-Control-Allow-Credentials", "true"),
   ("Access-Control-Allow-Methods", "GET, POST, PUT, DELETE, OPTIONS"),
   ("Access-Control-Allow-Headers", "Content-Type"),
   ("Access-Control-Max-Age", "86400")]

/-- The error raised by a failing Host proxy call.  This is tornado's
`tornado.httpclient.HTTPClientError`, carrying the HTTP `code` of the
upstream failure and a `message`. -/
structure HTTPClientError where
  code : Nat
  message : String
deriving DecidableEq

/-- String rendering of `HTTPClientError`; `ProxyHandler.proxy` writes
`str(error)` as the response body.  Tornado defines
`HTTPClientError.__str__` as `"HTTP %d: %s" % (self.code, self.message)`
(translated from the tornado library, which the source imports). -/
def errStr (e : HTTPClientError) : String :=
  "HTTP " ++ toString e.code ++ ": " ++ e.message

/-- Modelled from the spec: the successful result of
`HOST.proxy_environ` (section 6: `proxy(...) -> \x7bstatus, headers, body\x7d`),
of which `ProxyHandler.proxy` reads the response headers and body.
The body is a byte string. -/
structure UpstreamResponse where
  headers : Headers
  body : List Nat
deriving DecidableEq

/-- What a handler has written as the response payload: raw bytes
(`self.write(response.body)`), text (`self.write(str(error))`), or nothing. -/
inductive Payload where
  | bytes (b : List Nat)
  | text (s : String)
  | empty
deriving DecidableEq

/-- The outbound response assembled by `ProxyHandler.proxy`.  `hostCalls`
counts the invocations of `HOST.proxy_environ` the handler body performed. -/
structure ProxyOut where
  status : Nat
  headers : Headers
  body : Payload
  hostCalls : Nat
deriving DecidableEq

/-- The fixed exclusion set of `ProxyHandler.proxy`: the upstream transport
framing headers never copied to the outbound response. -/
def excludedHeaders : List String :=
  ["Content-Length", "Transfer-Encoding", "Content-Encoding", "Connection"]

/-- Tornado's `RequestHandler.add_header`: appends a header, allowing duplicates. -/
def addHeader (out : Headers) (name value : String) : Headers :=
  out ++ [(name, value)]

/-- Tornado's `RequestHandler.set_header`: replaces any existing values for the name. -/
def setHeader (out : Headers) (name value : String) : Headers :=
  (out.filter (fun kv => kv.1 != name)) ++ [(name, value)]

/-- The header-copy loop of `ProxyHandler.proxy`: for each upstream header,
`add_header` it unless its name is in the exclusion tuple. -/
def copyHeaders (out : Headers) : Headers → Headers
  | [] => out
  | (nm, vl) :: rest =>
      copyHeaders (if nm ∈ excludedHeaders then out else addHeader out nm vl) rest

/-- Translation of `ProxyHandler.proxy`.  `dflt` is the header state already
installed by `set_default_headers` when the handler body runs; `result` is the
outcome of the single `await HOST.proxy_environ(...)` call.  On error the
handler sets the error's status and writes `str(error)`; on success it copies
the non-excluded upstream headers, and, when the upstream body is non-empty
(Python truthiness of `response.body`), sets `Content-Length` to the body's
byte length and writes the body.  The success branch never sets a status, so
tornado's default status 200 stands.  Exactly one Host call happens either
way. -/
def ProxyHandler.proxy (dflt : Headers)
    (result : Except HTTPClientError UpstreamResponse) : ProxyOut :=
  match result with
  | Except.error e =>
      { status := e.code, headers := dflt, body := Payload.text (errStr e), hostCalls := 1 }
  | Except.ok response =>
      let hs := copyHeaders dflt response.headers
      if response.body ≠ [] then
        { status := 200,
          headers := setHeader hs "Content-Length" (toString response.body.length),
          body := Payload.bytes response.body,
          hostCalls := 1 }
      else
        { status := 200, headers := hs, body := Payload.empty, hostCalls := 1 }

theorem copyHeaders_eq (acc : Headers) (hs : Headers) :
    copyHeaders acc hs = acc ++ hs.filter (fun hv => decide (hv.1 ∉ excludedHeaders)) := by
  induction hs generalizing acc with
  | nil => simp [copyHeaders]
  | cons hd tl ih =>
      obtain ⟨nm, vl⟩ := hd
      by_cases h : nm ∈ excludedHeaders
      · simp [copyHeaders, h, ih]
      · simp [copyHeaders, h, ih, addHeader]

/-- C1: on a successful Host proxy call the handler copies every upstream
header except exactly the four excluded ones (which are never forwarded
verbatim: the copied portion contains no header with an excluded name), and
when the upstream body is non-empty it sets `Content-Length` to the body's
byte length and writes the body unmodified. -/
theorem proxy_success_relay (dflt : Headers) (r : UpstreamResponse) :
    (ProxyHandler.proxy dflt (Except.ok r)).status = 200
    ∧ (r.body = [] →
        (ProxyHandler.proxy dflt (Except.ok r)).headers
          = dflt ++ r.headers.filter (fun hv => decide (hv.1 ∉ excludedHeaders))
        ∧ (ProxyHandler.proxy dflt (Except.ok r)).body = Payload.empty)
    ∧ (r.body ≠ [] →
        (ProxyHandler.proxy dflt (Except.ok r)).headers
          = setHeader (dflt ++ r.headers.filter (fun hv => decide (hv.1 ∉ excludedHeaders)))
              "Content-Length" (toString r.body.length)
        ∧ (ProxyHandler.proxy dflt (Except.ok r)).body = Payload.bytes r.body)
    ∧ (∀ nm vl, nm ∈ excludedHeaders →
        (nm, vl) ∉ r.headers.filter (fun hv => decide (hv.1 ∉ excludedHeaders))) := by
  refine ⟨?_, ?_, ?_, ?_⟩
  · by_cases hb : r.body = [] <;> simp [ProxyHandler.proxy, hb]
  · intro hb
    simp [ProxyHandler.proxy, hb, copyHeaders_eq]
  · intro hb
    simp [ProxyHandler.proxy, hb, copyHeaders_eq]
  · intro nm vl hnm hmem
    rcases List.mem_filter.mp hmem with ⟨-, hpred⟩
    exact absurd hnm (of_decide_eq_true hpred)

/-- Witness for C1 at the spec's example: upstream headers
`Content-Length: 5` and `X-Foo: bar` with a 3-byte body; the outbound
headers keep `X-Foo`, drop the upstream `Content-Length`, and carry a
freshly computed `Content-Length: 3`; the body is relayed unmodified. -/
theorem proxy_success_relay_witness :
    (ProxyHandler.proxy []
        (Except.ok ⟨[("Content-Length", "5"), ("X-Foo", "bar")], [0, 1, 2]⟩)).headers
      = [("X-Foo", "bar"), ("Content-Length", "3")]
    ∧ (ProxyHandler.proxy []
        (Except.ok ⟨[("Content-Length", "5"), ("X-Foo", "bar")], [0, 1, 2]⟩)).body
      = Payload.bytes [0, 1, 2] := by
  have h := (proxy_success_relay []
      ⟨[("Content-Length", "5"), ("X-Foo", "bar")], [0, 1, 2]⟩).2.2.1 (by decide)
  exact ⟨h.1.trans (by decide), h.2⟩

/-- C3 counterexample: the handler writes `str(error)`, whose tornado
rendering is `"HTTP <code>: <message>"`, so for a 503 failure with message
`"Service Unavailable"` the body is `"HTTP 503: Service Unavailable"`,
which is not the bare message the claim states. -/
theorem proxy_error_body_counterexample :
    (ProxyHandler.proxy [] (Except.error ⟨503, "Service Unavailable"⟩)).status = 503
    ∧ (ProxyHandler.proxy [] (Except.error ⟨503, "Service Unavailable"⟩)).body
        = Payload.text "HTTP 503: Service Unavailable"
    ∧ (ProxyHandler.proxy [] (Except.error ⟨503, "Service Unavailable"⟩)).body
        ≠ Payload.text "Service Unavailable" := by
  refine ⟨rfl, rfl, by decide⟩

/-- C3 (amended): on a Host proxy failure carrying an HTTP status, the
outbound response has exactly that status, its body is the failure's string
rendering `"HTTP <code>: <message>"` (which embeds the message), and the
Host proxy operation was invoked exactly once — no retry. -/
theorem proxy_error_mirrors_status (dflt : Headers) (e : HTTPClientError) :
    (ProxyHandler.proxy dflt (Except.error e)).status = e.code
    ∧ (ProxyHandler.proxy dflt (Except.error e)).body
        = Payload.text ("HTTP " ++ toString e.code ++ ": " ++ e.message)
    ∧ (ProxyHandler.proxy dflt (Except.error e)).hostCalls = 1 :=
  ⟨rfl, rfl, rfl⟩

/-- C9: the error branch of `ProxyHandler.proxy` emits only the mirrored
status and the error text: the outbound headers are exactly the default
headers (nothing copied from any upstream response) and the body holds the
error text, not upstream bytes. -/
theorem proxy_error_no_upstream_data (dflt : Headers) (e : HTTPClientError) :
    (ProxyHandler.proxy dflt (Except.error e)).headers = dflt
    ∧ (ProxyHandler.proxy dflt (Except.error e)).body = Payload.text (errStr e)
    ∧ ∀ b : List Nat, (ProxyHandler.proxy dflt (Except.error e)).body ≠ Payload.bytes b :=
  ⟨rfl, rfl, fun _ h => Payload.noConfusion h⟩

/-- Witness for C9 on a concrete 502 failure over a concrete header
state: headers stay at the defaults and the body is the error text, never
upstream bytes. -/
theorem proxy_error_no_upstream_data_witness :
    (ProxyHandler.proxy [("Content-Type", "application/json")]
        (Except.error ⟨502, "Bad Gateway"⟩)).headers = [("Content-Type", "application/json")]
    ∧ (ProxyHandler.proxy [("Content-Type", "application/json")]
        (Except.error ⟨502, "Bad Gateway"⟩)).body ≠ Payload.bytes [7] :=
  ⟨(proxy_error_no_upstream_data [("Content-Type", "application/json")] ⟨502, "Bad Gateway"⟩).1,
   (proxy_error_no_upstream_data [("Content-Type", "application/json")] ⟨502, "Bad Gateway"⟩).2.2 [7]⟩

/-- Python exceptions as seen by `BaseHandler.write_error`: a `ValueError`
(or a subclass — Python's `isinstance` test) carrying message `msg`, or any
other exception. -/
inductive PyExc where
  | valueErr (msg : String)
  | otherErr (msg : String)
deriving DecidableEq

/-- The `isinstance(value, ValueError)` test of `BaseHandler.write_error`. -/
def PyExc.isValueError : PyExc → Bool
  | .valueErr _ => true
  | .otherErr _ => false

/-- A rendered error response: status code plus written body. -/
structure ErrResponse where
  status : Nat
  body : String
deriving DecidableEq

/-- Translation of `BaseHandler.write_error`.  `base` is the inherited
`RequestHandler.write_error` (tornado's generic error page), `statusCode` is
the status tornado passes in (500 for uncaught exceptions), and `excInfo` is
the exception from `kwargs['exc_info']` when present.  A `ValueError` is
rendered as status 400 with `str(value)` written as-is (for `ValueError`,
`str` returns the message); everything else falls back to the base class. -/
def BaseHandler.write_error (base : Nat → ErrResponse) (statusCode : Nat)
    (excInfo : Option PyExc) : ErrResponse :=
  match excInfo with
  | some (PyExc.valueErr m) => { status := 400, body := m }
  | _ => base statusCode

/-- C7: a validation-style (`ValueError`) failure renders as status 400 with
the error's message as the plain-text body; any other uncaught error (or a
`write_error` call without exception info) falls back to the inherited
generic server-error response. -/
theorem write_error_translation (base : Nat → ErrResponse) (statusCode : Nat) :
    (∀ m, BaseHandler.write_error base statusCode (some (PyExc.valueErr m))
        = { status := 400, body := m })
    ∧ (∀ e, e.isValueError = false →
        BaseHandler.write_error base statusCode (some e) = base statusCode)
    ∧ BaseHandler.write_error base statusCode none = base statusCode := by
  refine ⟨fun m => rfl, fun e he => ?_, rfl⟩
  cases e with
  | valueErr m => simp [PyExc.isValueError] at he
  | otherErr m => rfl

/-- Witness for C7: a concrete `ValueError` yields 400 with its message,
while a non-`ValueError` exception is handed to the base implementation. -/
theorem write_error_translation_witness :
    BaseHandler.write_error (fun sc => { status := sc, body := "generic" }) 500
        (some (PyExc.valueErr "bad input")) = { status := 400, body := "bad input" }
    ∧ BaseHandler.write_error (fun sc => { status := sc, body := "generic" }) 500
        (some (PyExc.otherErr "boom")) = { status := 500, body := "generic" } :=
  ⟨(write_error_translation (fun sc => { status := sc, body := "generic" }) 500).1 "bad input",
   (write_error_translation (fun sc => { status := sc, body := "generic" }) 500).2.1
      (PyExc.otherErr "boom") rfl⟩

/-- JSON documents, as returned by Host's manifest operation and serialized
by `BaseHandler.send` with `json.dumps(value, indent=2)`.  Numbers are
modelled as integers; float formatting is out of scope. -/
inductive Json where
  | null
  | bool (b : Bool)
  | num (n : Int)
  | str (s : String)
  | arr (elems : List Json)
  | obj (fields : List (String × Json))

/-- Lowercase hexadecimal digit, as Python's `\uXXXX` escapes use. -/
def hexDigit (n : Nat) : Char :=
  if n < 10 then Char.ofNat (48 + n) else Char.ofNat (87 + n)

/-- Four-digit lowercase hexadecimal rendering. -/
def hex4 (n : Nat) : String :=
  String.mk [hexDigit (n / 4096 % 16), hexDigit (n / 256 % 16),
             hexDigit (n / 16 % 16), hexDigit (n % 16)]

/-- Python `json` non-ASCII escape: basic-plane characters as `\uXXXX`,
astral characters as a UTF-16 surrogate pair. -/
def uEsc (n : Nat) : String :=
  if n < 65536 then "\\u" ++ hex4 n
  else "\\u" ++ hex4 (55296 + (n - 65536) / 1024) ++ "\\u" ++ hex4 (56320 + (n - 65536) % 1024)

/-- Escaping of one character inside a JSON string literal, following
Python's `json.encoder` with `ensure_ascii=True` (the `json.dumps`
default): the two-character shorthands, then `\uXXXX` for other control or
non-ASCII characters. -/
def escChar (c : Char) : String :=
  if c = '\"' then "\\\""
  else if c = '\\' then "\\\\"
  else if c = '\n' then "\\n"
  else if c = '\t' then "\\t"
  else if c = '\r' then "\\r"
  else if c.toNat = 8 then "\\b"
  else if c.toNat = 12 then "\\f"
  else if c.toNat < 32 ∨ c.toNat > 126 then uEsc c.toNat
  else String.mk [c]

/-- A JSON string literal: quotes around the escaped characters. -/
def jsonQuote (s : String) : String :=
  "\"" ++ String.join (s.toList.map escChar) ++ "\""

/-- With `indent=2`, Python puts `2*level` spaces before each element. -/
def pad (lvl : Nat) : String :=
  String.mk (List.replicate (2 * lvl) ' ')

mutual
/-- Python's `json.dumps(value, indent=2)` at nesting depth `lvl`.  With an `indent`
argument Python uses separators `(',', ': ')`, opens containers with a
newline, indents each element, and closes on a fresh line at the enclosing
indentation; empty containers render as `[]` and `\x7b\x7d`. -/
def dumpVal (lvl : Nat) (j : Json) : String :=
  match j with
  | Json.null => "null"
  | Json.bool true => "true"
  | Json.bool false => "false"
  | Json.num n => toString n
  | Json.str s => jsonQuote s
  | Json.arr [] => "[]"
  | Json.arr (e :: es) => "[\n" ++ dumpElems (lvl + 1) e es ++ "\n" ++ pad lvl ++ "]"
  | Json.obj [] => "\x7b\x7d"
  | Json.obj ((k, v) :: fs) => "\x7b\n" ++ dumpFields (lvl + 1) k v fs ++ "\n" ++ pad lvl ++ "\x7d"
termination_by sizeOf j

/-- Comma/newline-separated, indented array elements. -/
def dumpElems (lvl : Nat) (e : Json) (es : List Json) : String :=
  match es with
  | [] => pad lvl ++ dumpVal lvl e
  | e2 :: es2 => pad lvl ++ dumpVal lvl e ++ ",\n" ++ dumpElems lvl e2 es2
termination_by sizeOf e + sizeOf es

/-- Comma/newline-separated, indented object members, `key: value`. -/
def dumpFields (lvl : Nat) (k : String) (v : Json) (fs : List (String × Json)) : String :=
  match fs with
  | [] => pad lvl ++ jsonQuote k ++ ": " ++ dumpVal lvl v
  | (k2, v2) :: fs2 =>
      pad lvl ++ jsonQuote k ++ ": " ++ dumpVal lvl v ++ ",\n" ++ dumpFields lvl k2 v2 fs2
termination_by sizeOf v + sizeOf fs
end

/-- Python's `str.split(',')` on the character list: split at every comma,
never merging adjacent separators; the empty string yields one empty
group. -/
def splitCommaChars : List Char → List (List Char)
  | [] => [[]]
  | c :: t =>
      if c = ',' then [] :: splitCommaChars t
      else
        match splitCommaChars t with
        | [] => [[c]]
        | g :: gs => (c :: g) :: gs

/-- Python's `environs.split(',')`. -/
def pySplitComma (s : String) : List String :=
  (splitCommaChars s.toList).map (fun l => String.mk l)

/-- The filter argument `ManifestHandler.get` passes to `HOST.manifest`:
Python's `environs.split(',') if environs else None` (the empty string is
falsy). -/
def manifestArg (environs : String) : Option (List String) :=
  if environs = "" then none else some (pySplitComma environs)

/-- The outcome of `ManifestHandler.get`: response status and body, plus
`hostArg`, the argument of the single synchronous `HOST.manifest`
invocation the handler performs. -/
structure ManifestOut where
  status : Nat
  body : String
  hostArg : Option (List String)
deriving DecidableEq

/-- Translation of `ManifestHandler.get` composed with `BaseHandler.send`:
call `HOST.manifest` with the parsed filter, then write
`json.dumps(value, indent=2)`.  The handler never sets a status, so
tornado's default status 200 stands. -/
def ManifestHandler.get (host : Option (List String) → Json) (environs : String) : ManifestOut :=
  { status := 200,
    body := dumpVal 0 (host (manifestArg environs)),
    hostArg := manifestArg environs }

/-- C5: the filter segment `"a,b"` makes the handler invoke Host's manifest
operation with the list `["a", "b"]`; an empty filter segment invokes it
with none; the result is serialized as 2-space-indented JSON with status
200 — illustrated on a concrete document whose rendering matches
`json.dumps` with `indent=2`. -/
theorem manifest_filter_and_serialization (host : Option (List String) → Json) :
    (ManifestHandler.get host "a,b").hostArg = some ["a", "b"]
    ∧ (ManifestHandler.get host "").hostArg = none
    ∧ (∀ environs, (ManifestHandler.get host environs).status = 200
        ∧ (ManifestHandler.get host environs).body = dumpVal 0 (host (manifestArg environs)))
    ∧ (ManifestHandler.get (fun _ => Json.obj [("id", Json.str "x123")]) "").body
        = "\x7b\n  \"id\": \"x123\"\n\x7d" := by
  refine ⟨rfl, rfl, fun environs => ⟨rfl, rfl⟩, ?_⟩
  show dumpVal 0 (Json.obj [("id", Json.str "x123")]) = "\x7b\n  \"id\": \"x123\"\n\x7d"
  simp only [dumpVal, dumpFields]
  decide

/-- Literal fragment matcher: `matchLit lit p` consumes the exact characters
of `lit` from the front of `p`, returning the remainder. -/
def matchLit : List Char → List Char → Option (List Char)
  | [], p => some p
  | _ :: _, [] => none
  | a :: as, b :: bs => if a = b then matchLit as bs else none

/-- Python's `$` anchor (no MULTILINE flag) matches at the end of the input
or just before one final newline; `dotStarEnd q` says `.*$` accepts the
remainder `q` (`.` never matches a newline). -/
def dotStarEnd : List Char → Bool
  | [] => true
  | c :: t => if c = '\n' then t.isEmpty else dotStarEnd t

/-- The pattern `.+$`: like `dotStarEnd`, but `.` must match at least one character. -/
def dotPlusEnd : List Char → Bool
  | [] => false
  | c :: t => if c = '\n' then false else dotStarEnd t

/-- The pattern `/?$`: an optional slash, then the `$` anchor. -/
def optSlashEnd : List Char → Bool
  | [] => true
  | ['\n'] => true
  | ['/'] => true
  | ['/', '\n'] => true
  | _ => false

/-- One position of the router pattern `^.*?<marker>.*$`: the marker matches
here and `.*$` accepts the rest. -/
def hereRule (marker p : List Char) : Bool :=
  match matchLit marker p with
  | some rem => dotStarEnd rem
  | none => false

/-- Tornado `PathMatches(r'^.*?<marker>.*')` (tornado appends the missing
`$`): the lazy `.*?` tries the earliest position first and cannot cross a
newline.  The scan order does not affect the boolean result, but the
translation keeps it. -/
def ruleMatch (marker : List Char) : List Char → Bool
  | [] => hereRule marker []
  | c :: t => hereRule marker (c :: t) || (c != '\n' && ruleMatch marker t)

/-- One position of `(.*?)<marker>/?$` for the manifest route. -/
def hereManifest (marker p : List Char) : Bool :=
  match matchLit marker p with
  | some rem => optSlashEnd rem
  | none => false

/-- The lazy scan of `(.*?)<marker>/?$`. -/
def manifestScan (marker : List Char) : List Char → Bool
  | [] => hereManifest marker []
  | c :: t => hereManifest marker (c :: t) || (c != '\n' && manifestScan marker t)

/-- The manifest route `^/?(?P<environs>.*?)/vN/manifest/?` (tornado appends
`$`): the leading `/?` greedily consumes one slash when present and
backtracks to consuming none. -/
def manifestMatch (marker p : List Char) : Bool :=
  (match p with
   | '/' :: t => manifestScan marker t
   | _ => false) || manifestScan marker p

/-- One position of `<marker>(?P<environ_id>.+)$` for the environ route. -/
def hereEnviron (marker p : List Char) : Bool :=
  match matchLit marker p with
  | some rem => dotPlusEnd rem
  | none => false

/-- The environ route `^.*?/v1/environs/(?P<environ_id>.+)` — v0 uses the
singular `environ` marker — with tornado's appended `$`. -/
def environMatch (marker : List Char) : List Char → Bool
  | [] => hereEnviron marker []
  | c :: t => hereEnviron marker (c :: t) || (c != '\n' && environMatch marker t)

/-- Split at the first occurrence of `c`: `splitFirst c s = some (a, b)`
with `s = a ++ c :: b` and `c ∉ a`.  A greedy negated class `[^c]+`
followed by the literal `c` consumes its input exactly this way: the class
cannot contain `c`, so backtracking can produce no other split. -/
def splitFirst (c : Char) : List Char → Option (List Char × List Char)
  | [] => none
  | a :: t =>
      if a = c then some ([], t)
      else
        match splitFirst c t with
        | some (x, y) => some (a :: x, y)
        | none => none

/-- The final proxy group `(?P<path>.+)$`: everything to the end — or to one
final newline, which `$` tolerates — at least one character, no newline
inside. -/
def pathGroup (q : List Char) : Option (List Char) :=
  match splitFirst '\n' q with
  | none => if q = [] then none else some q
  | some (w, r) => if r = [] ∧ w ≠ [] then some w else none

/-- The anchored tail of the proxy route,
`(?P<binder_id>[^@]+)\@(?P<token>[^\/]+)/(?P<path>.+)$`: the binder id is
the non-empty run up to the first `@`, the token the non-empty run from
there up to the next `/`, the path the non-empty rest; the greedy classes
admit no other decomposition. -/
def restMatch (q : List Char) : Option (List Char × List Char × List Char) :=
  match splitFirst '@' q with
  | none => none
  | some (sid, afterAt) =>
      if sid = [] then none
      else
        match splitFirst '/' afterAt with
        | none => none
        | some (tok, aft) =>
            if tok = [] then none
            else
              match pathGroup aft with
              | none => none
              | some sub => some (sid, tok, sub)

/-- The proxy route `^.*?/vN/proxy/<groups>` (tornado appends `$`): the lazy
prefix tries each position in order, first requiring the literal marker and
then the group pattern; on failure it extends past one more non-newline
character. -/
def scanProxy (marker : List Char) : List Char → Option (List Char × List Char × List Char)
  | [] => (matchLit marker []).bind restMatch
  | c :: t =>
      match (matchLit marker (c :: t)).bind restMatch with
      | some g => some g
      | none => if c = '\n' then none else scanProxy marker t

/-- The index route `^/$` (the router rule and the index app's only route
compile to the same pattern). -/
def indexMatch (p : List Char) : Bool :=
  p == ['/'] || p == ['/', '\n']

/-- The handler kinds a version app's route table can select
(`IndexHandler` lives in its own app). -/
inductive HandlerKind where
  | manifestH
  | environH
  | proxyH (binderId token path : List Char)
  | indexH
deriving DecidableEq

/-- A version app's ordered route table, as listed in `make`: manifest, then
environ, then proxy; the first matching template wins, none matching falls
through to tornado's 404. -/
def appRoute (mMarker eMarker pMarker : List Char) (p : List Char) : Option HandlerKind :=
  if manifestMatch mMarker p then some HandlerKind.manifestH
  else if environMatch eMarker p then some HandlerKind.environH
  else
    match scanProxy pMarker p with
    | some (sid, tok, sub) => some (HandlerKind.proxyH sid tok sub)
    | none => none

/-- The target selected by the top-level `RuleRouter` of `make`. -/
inductive RuleTarget where
  | v1App
  | v0App
  | indexApp
  | noRule
deriving DecidableEq

/-- The `RuleRouter` built by `make`: rules tried in order `^.*?/v1/.*`,
`^.*?/v0/.*`, `^/$`; no rule matching means tornado's default 404. -/
def routerRules (p : List Char) : RuleTarget :=
  if ruleMatch "/v1/".toList p then RuleTarget.v1App
  else if ruleMatch "/v0/".toList p then RuleTarget.v0App
  else if indexMatch p then RuleTarget.indexApp
  else RuleTarget.noRule

/-- Where a request ends up after both routing levels: a concrete handler, a
version app's default 404 (no template matched inside the app), or the
router's default 404 (no rule matched). -/
inductive Dispatch where
  | handler (h : HandlerKind)
  | appDefault404
  | routerDefault404
deriving DecidableEq

/-- End-to-end dispatch of `make`: router rule first, then the selected
app's route table.  The index app's only route is `^/$`, the same pattern
as its router rule, so reaching it always selects the index handler. -/
def dispatch (p : List Char) : Dispatch :=
  match routerRules p with
  | RuleTarget.v1App =>
      match appRoute "/v1/manifest".toList "/v1/environs/".toList "/v1/proxy/".toList p with
      | some h => Dispatch.handler h
      | none => Dispatch.appDefault404
  | RuleTarget.v0App =>
      match appRoute "/v0/manifest".toList "/v0/environ/".toList "/v0/proxy/".toList p with
      | some h => Dispatch.handler h
      | none => Dispatch.appDefault404
  | RuleTarget.indexApp => Dispatch.handler HandlerKind.indexH
  | RuleTarget.noRule => Dispatch.routerDefault404

/-- A full HTTP response: status, headers, textual body. -/
structure HttpResponse where
  status : Nat
  headers : Headers
  body : String
deriving DecidableEq

/-- Modelled from the spec: the 404 response tornado produces when no route
template matches (section 7, NotFound — "no route template matches
path/method → 404"); the spec fixes only the status, so headers and body
are left empty here. -/
def notFoundResponse : HttpResponse :=
  { status := 404, headers := [], body := "" }

/-- An `OPTIONS` or `HEAD` request: every routed handler inherits
`BaseHandler.head` / `BaseHandler.options`, which set status 204 and finish
with an empty body on top of the default (CORS) headers; a request that no
route template catches gets tornado's 404 instead. -/
def headOptionsResponse (tornadoVersion : String) (reqHeaders : Headers)
    (p : List Char) : HttpResponse :=
  match dispatch p with
  | Dispatch.handler _ =>
      { status := 204,
        headers := BaseHandler.set_default_headers tornadoVersion reqHeaders,
        body := "" }
  | _ => notFoundResponse

theorem matchLit_append (lit rest : List Char) : matchLit lit (lit ++ rest) = some rest := by
  induction lit with
  | nil => rfl
  | cons a as ih => simp [matchLit, ih]

theorem matchLit_eq_some (lit : List Char) :
    ∀ p r : List Char, matchLit lit p = some r → p = lit ++ r := by
  induction lit with
  | nil =>
      intro p r h
      simpa [matchLit] using h
  | cons a as ih =>
      intro p r h
      cases p with
      | nil => simp [matchLit] at h
      | cons b bs =>
          by_cases hab : a = b
          · subst hab
            simp only [matchLit, if_pos rfl] at h
            simpa using ih bs r h
          · simp [matchLit, hab] at h

theorem dotStarEnd_of_forall (q : List Char) (h : ∀ c ∈ q, c ≠ '\n') :
    dotStarEnd q = true := by
  induction q with
  | nil => rfl
  | cons c t ih =>
      have hc : c ≠ '\n' := h c (List.mem_cons_self c t)
      simp [dotStarEnd, hc, ih (fun x hx => h x (List.mem_cons_of_mem c hx))]

/-- Characterization of the router rule `^.*?<marker>.*$`: on a newline-free
path it matches exactly when the marker occurs somewhere in the path. -/
theorem ruleMatch_iff (marker p : List Char) (hnl : ∀ c ∈ p, c ≠ '\n') :
    ruleMatch marker p = true ↔ ∃ a b, p = a ++ marker ++ b := by
  induction p with
  | nil =>
      show hereRule marker [] = true ↔ _
      unfold hereRule
      cases hm : matchLit marker [] with
      | none =>
          refine ⟨fun h => absurd h (by simp), ?_⟩
          rintro ⟨a, b, hab⟩
          obtain ⟨h1, hb⟩ := List.append_eq_nil.mp hab.symm
          obtain ⟨ha, hmk⟩ := List.append_eq_nil.mp h1
          subst hmk
          simp [matchLit] at hm
      | some r =>
          have hmr := matchLit_eq_some marker [] r hm
          obtain ⟨hmk, hr⟩ := List.append_eq_nil.mp hmr.symm
          subst hmk; subst hr
          exact ⟨fun _h => ⟨[], [], rfl⟩, fun _h => rfl⟩
  | cons c t ih =>
      have hc : c ≠ '\n' := hnl c (List.mem_cons_self c t)
      have hnt : ∀ x ∈ t, x ≠ '\n' := fun x hx => hnl x (List.mem_cons_of_mem c hx)
      constructor
      · intro h
        simp only [ruleMatch, Bool.or_eq_true, Bool.and_eq_true] at h
        rcases h with h1 | ⟨-, h3⟩
        · unfold hereRule at h1
          cases hm : matchLit marker (c :: t) with
          | none => rw [hm] at h1; exact absurd h1 (by simp)
          | some r =>
              exact ⟨[], r, by simpa using matchLit_eq_some marker (c :: t) r hm⟩
        · rcases (ih hnt).mp h3 with ⟨a, b, hab⟩
          exact ⟨c :: a, b, by simp [hab]⟩
      · rintro ⟨a, b, hab⟩
        cases a with
        | nil =>
            simp only [List.nil_append] at hab
            have h1 : hereRule marker (c :: t) = true := by
              unfold hereRule
              rw [hab, matchLit_append]
              exact dotStarEnd_of_forall b (fun x hx => by
                have hxp : x ∈ c :: t := by rw [hab]; exact List.mem_append_right _ hx
                exact hnl x hxp)
            simp [ruleMatch, h1]
        | cons a0 a1 =>
            simp only [List.cons_append] at hab
            injection hab with h0 h1
            subst h0
            have h3 : ruleMatch marker t = true := (ih hnt).mpr ⟨a1, b, h1⟩
            simp [ruleMatch, h3, hc]

theorem splitFirst_eq_none (c : Char) (s : List Char) (h : c ∉ s) :
    splitFirst c s = none := by
  induction s with
  | nil => rfl
  | cons x t ih =>
      have hx : x ≠ c := by rintro rfl; exact h (List.mem_cons_self x t)
      have hxc : ¬ (x = c) := hx
      simp [splitFirst, hxc, ih (fun hm => h (List.mem_cons_of_mem x hm))]

theorem splitFirst_eq (c : Char) (a b : List Char) (ha : c ∉ a) :
    splitFirst c (a ++ c :: b) = some (a, b) := by
  induction a with
  | nil => simp [splitFirst]
  | cons x t ih =>
      have hx : ¬ (x = c) := by rintro rfl; exact ha (List.mem_cons_self x t)
      simp [splitFirst, hx, ih (fun hm => ha (List.mem_cons_of_mem x hm))]

theorem splitFirst_eq_some (c : Char) :
    ∀ s a b : List Char, splitFirst c s = some (a, b) → s = a ++ c :: b ∧ c ∉ a := by
  intro s
  induction s with
  | nil => intro a b h; simp [splitFirst] at h
  | cons x t ih =>
      intro a b h
      by_cases hx : x = c
      · subst hx
        have hsp : splitFirst x (x :: t) = some ([], t) := by simp [splitFirst]
        rw [hsp] at h
        injection h with hp
        injection hp with hp1 hp2
        subst hp1; subst hp2
        simp
      · simp only [splitFirst, if_neg hx] at h
        cases hs : splitFirst c t with
        | none => rw [hs] at h; simp at h
        | some xy =>
            obtain ⟨x2, y2⟩ := xy
            rw [hs] at h
            injection h with hp
            injection hp with hp1 hp2
            subst hp1; subst hp2
            obtain ⟨ht, hnx⟩ := ih x2 y2 hs
            subst ht
            refine ⟨by simp, ?_⟩
            intro hmem
            rcases List.mem_cons.mp hmem with hcx | hcx
            · exact hx hcx.symm
            · exact hnx hcx

theorem pathGroup_eq (sub : List Char) (hne : sub ≠ []) (hnl : '\n' ∉ sub) :
    pathGroup sub = some sub := by
  simp [pathGroup, splitFirst_eq_none '\n' sub hnl, hne]

theorem pathGroup_some (q w : List Char) (h : pathGroup q = some w) : w ≠ [] := by
  unfold pathGroup at h
  cases hs : splitFirst '\n' q with
  | none =>
      rw [hs] at h
      by_cases hq : q = []
      · simp [hq] at h
      · simp only [if_neg hq, Option.some.injEq] at h
        exact h ▸ hq
  | some wr =>
      obtain ⟨w1, r⟩ := wr
      rw [hs] at h
      by_cases hc : r = [] ∧ w1 ≠ []
      · simp only [if_pos hc, Option.some.injEq] at h
        exact h ▸ hc.2
      · simp [hc] at h

theorem restMatch_eq (sid tok sub : List Char)
    (hsid : sid ≠ []) (hsidAt : '@' ∉ sid) (htok : tok ≠ []) (htokSl : '/' ∉ tok)
    (hsub : sub ≠ []) (hsubNl : '\n' ∉ sub) :
    restMatch (sid ++ '@' :: (tok ++ '/' :: sub)) = some (sid, tok, sub) := by
  simp [restMatch, splitFirst_eq '@' sid (tok ++ '/' :: sub) hsidAt, hsid,
    splitFirst_eq '/' tok sub htokSl, htok, pathGroup_eq sub hsub hsubNl]

theorem restMatch_some (q sid tok sub : List Char)
    (h : restMatch q = some (sid, tok, sub)) :
    sid ≠ [] ∧ '@' ∉ sid ∧ tok ≠ [] ∧ '/' ∉ tok ∧ sub ≠ [] := by
  unfold restMatch at h
  cases hs1 : splitFirst '@' q with
  | none => rw [hs1] at h; simp at h
  | some p1 =>
      obtain ⟨sid1, afterAt⟩ := p1
      rw [hs1] at h
      by_cases h1 : sid1 = []
      · simp [h1] at h
      · simp only [if_neg h1] at h
        cases hs2 : splitFirst '/' afterAt with
        | none => rw [hs2] at h; simp at h
        | some p2 =>
            obtain ⟨tok1, aft⟩ := p2
            rw [hs2] at h
            by_cases h2 : tok1 = []
            · simp [h2] at h
            · simp only [if_neg h2] at h
              cases hs3 : pathGroup aft with
              | none => rw [hs3] at h; simp at h
              | some sub1 =>
                  rw [hs3] at h
                  injection h with hp
                  injection hp with hp1 hp2
                  injection hp2 with hp3 hp4
                  subst hp1; subst hp3; subst hp4
                  exact ⟨h1, (splitFirst_eq_some '@' q _ afterAt hs1).2, h2,
                    (splitFirst_eq_some '/' afterAt _ aft hs2).2,
                    pathGroup_some aft _ hs3⟩

theorem scanProxy_some (marker : List Char) :
    ∀ p sid tok sub : List Char, scanProxy marker p = some (sid, tok, sub) →
      sid ≠ [] ∧ '@' ∉ sid ∧ tok ≠ [] ∧ '/' ∉ tok ∧ sub ≠ [] := by
  intro p
  induction p with
  | nil =>
      intro sid tok sub h
      cases hm : matchLit marker [] with
      | none => simp [scanProxy, hm] at h
      | some r =>
          simp only [scanProxy, hm, Option.bind_some] at h
          exact restMatch_some r sid tok sub h
  | cons c t ih =>
      intro sid tok sub h
      simp only [scanProxy] at h
      cases hm : (matchLit marker (c :: t)).bind restMatch with
      | some g =>
          rw [hm] at h
          obtain ⟨s1, t1, u1⟩ := g
          rcases Option.bind_eq_some.mp hm with ⟨r, -, hrm⟩
          injection h with hp
          injection hp with hp1 hp2
          injection hp2 with hp3 hp4
          subst hp1; subst hp3; subst hp4
          exact restMatch_some r _ _ _ hrm
      | none =>
          rw [hm] at h
          by_cases hc : c = '\n'
          · simp [hc] at h
          · simp only [if_neg hc] at h
            exact ih sid tok sub h

theorem scanProxy_here (marker p : List Char) (g : List Char × List Char × List Char)
    (h : (matchLit marker p).bind restMatch = some g) :
    scanProxy marker p = some g := by
  cases p with
  | nil => simpa [scanProxy] using h
  | cons c t =>
      simp only [scanProxy]
      rw [h]

theorem scanProxy_skip (marker : List Char) (c : Char) (t : List Char)
    (hml : matchLit marker (c :: t) = none) (hc : c ≠ '\n') :
    scanProxy marker (c :: t) = scanProxy marker t := by
  simp [scanProxy, hml, hc]

/-- The lazy scan stops at the designated marker occurrence: if no earlier
position matches the literal marker, the skipped prefix is newline-free and
the anchored group pattern accepts the remainder, the scan returns the
groups parsed there. -/
theorem scanProxy_at (marker : List Char) :
    ∀ pre rest (g : List Char × List Char × List Char), (∀ c ∈ pre, c ≠ '\n') →
      (∀ j, j < pre.length → matchLit marker ((pre ++ marker ++ rest).drop j) = none) →
      restMatch rest = some g →
      scanProxy marker (pre ++ marker ++ rest) = some g := by
  intro pre
  induction pre with
  | nil =>
      intro rest g _h1 _h2 hr
      apply scanProxy_here
      simp [matchLit_append, hr]
  | cons c pre ih =>
      intro rest g h1 h2 hr
      have hc : c ≠ '\n' := h1 c (List.mem_cons_self _ _)
      have hml : matchLit marker (c :: (pre ++ marker ++ rest)) = none := by
        have h0 := h2 0 (by simp)
        simpa using h0
      rw [show (c :: pre) ++ marker ++ rest = c :: (pre ++ marker ++ rest) from by simp]
      rw [scanProxy_skip marker c _ hml hc]
      exact ih rest g (fun x hx => h1 x (List.mem_cons_of_mem _ hx))
        (fun j hj => by
          have hs := h2 (j + 1) (by simpa using Nat.succ_lt_succ hj)
          simpa using hs)
        hr

/-- C2: the proxy route template decomposes the remainder after `/vN/proxy/`
by splitting at the first `@` (the session id), then at the next `/` (the
token); everything after that slash is the sub-path.  The hypotheses state
exactly that shape — id non-empty and `@`-free, token non-empty and
slash-free, sub-path non-empty (and newline-free, `.` being unable to match
a newline) — plus that the literal marker occurs nowhere earlier in the
path, so the lazy prefix stops at the designated occurrence. -/
theorem proxy_route_decomposition (marker pre sid tok sub : List Char)
    (hpre : ∀ c ∈ pre, c ≠ '\n')
    (hfirst : ∀ j, j < pre.length →
      matchLit marker ((pre ++ marker ++ (sid ++ '@' :: (tok ++ '/' :: sub))).drop j) = none)
    (hsid : sid ≠ []) (hsidAt : '@' ∉ sid)
    (htok : tok ≠ []) (htokSl : '/' ∉ tok)
    (hsub : sub ≠ []) (hsubNl : '\n' ∉ sub) :
    scanProxy marker (pre ++ marker ++ (sid ++ '@' :: (tok ++ '/' :: sub)))
      = some (sid, tok, sub) :=
  scanProxy_at marker pre _ _ hpre hfirst
    (restMatch_eq sid tok sub hsid hsidAt htok htokSl hsub hsubNl)

/-- Witness for C2: `/v1/proxy/abc@tok123/some/sub/path` decomposes to
session id `abc`, token `tok123`, sub-path `some/sub/path`. -/
theorem proxy_route_decomposition_witness :
    scanProxy "/v1/proxy/".toList
        ([] ++ "/v1/proxy/".toList
          ++ ("abc".toList ++ '@' :: ("tok123".toList ++ '/' :: "some/sub/path".toList)))
      = some ("abc".toList, "tok123".toList, "some/sub/path".toList) :=
  proxy_route_decomposition "/v1/proxy/".toList [] "abc".toList "tok123".toList
    "some/sub/path".toList (by decide) (fun j hj => absurd hj (Nat.not_lt_zero j))
    (by decide) (by decide) (by decide) (by decide) (by decide) (by decide)

/-- C4: the version router evaluates its rules in fixed order on the raw
request path: a path containing `/v1/` goes to the v1 app; otherwise one
containing `/v0/` goes to the v0 app; otherwise exactly `/` goes to the
index app; any other path falls to the 404 default.  (Request paths carry
no raw newline — HTTP request framing cannot express one.) -/
theorem router_fixed_order (p : List Char) (hnl : ∀ c ∈ p, c ≠ '\n') :
    ((∃ a b, p = a ++ "/v1/".toList ++ b) → routerRules p = RuleTarget.v1App)
    ∧ (¬ (∃ a b, p = a ++ "/v1/".toList ++ b) → (∃ a b, p = a ++ "/v0/".toList ++ b) →
        routerRules p = RuleTarget.v0App)
    ∧ (¬ (∃ a b, p = a ++ "/v1/".toList ++ b) → ¬ (∃ a b, p = a ++ "/v0/".toList ++ b) →
        p = ['/'] → routerRules p = RuleTarget.indexApp)
    ∧ (¬ (∃ a b, p = a ++ "/v1/".toList ++ b) → ¬ (∃ a b, p = a ++ "/v0/".toList ++ b) →
        p ≠ ['/'] → routerRules p = RuleTarget.noRule) := by
  have notTrue : ∀ b : Bool, b = false → ¬ (b = true) := by
    intro b hb
    simp [hb]
  refine ⟨?_, ?_, ?_, ?_⟩
  · intro h1
    have e1 : ruleMatch "/v1/".toList p = true := (ruleMatch_iff "/v1/".toList p hnl).mpr h1
    unfold routerRules
    rw [if_pos e1]
  · intro h1 h0
    have e1 : ruleMatch "/v1/".toList p = false := by
      cases he : ruleMatch "/v1/".toList p
      · rfl
      · exact absurd ((ruleMatch_iff "/v1/".toList p hnl).mp he) h1
    have e0 : ruleMatch "/v0/".toList p = true := (ruleMatch_iff "/v0/".toList p hnl).mpr h0
    unfold routerRules
    rw [if_neg (notTrue _ e1), if_pos e0]
  · intro _h1 _h0 hp
    subst hp
    decide
  · intro h1 h0 hp
    have e1 : ruleMatch "/v1/".toList p = false := by
      cases he : ruleMatch "/v1/".toList p
      · rfl
      · exact absurd ((ruleMatch_iff "/v1/".toList p hnl).mp he) h1
    have e0 : ruleMatch "/v0/".toList p = false := by
      cases he : ruleMatch "/v0/".toList p
      · rfl
      · exact absurd ((ruleMatch_iff "/v0/".toList p hnl).mp he) h0
    have hp2 : p ≠ ['/', '\n'] := by
      rintro rfl
      exact hnl '\n' (by simp) rfl
    have b1 : (p == ['/']) = false := beq_eq_false_iff_ne.mpr hp
    have b2 : (p == ['/', '\n']) = false := beq_eq_false_iff_ne.mpr hp2
    have e2 : indexMatch p = false := by
      unfold indexMatch
      rw [b1, b2]
      rfl
    unfold routerRules
    rw [if_neg (notTrue _ e1), if_neg (notTrue _ e0), if_neg (notTrue _ e2)]

/-- Witness for C4: a path containing both version markers goes to the v1
app, and the root path `/` reaches the index app. -/
theorem router_fixed_order_witness :
    routerRules ("/v0/x".toList ++ "/v1/".toList ++ "y".toList) = RuleTarget.v1App
    ∧ routerRules ['/'] = RuleTarget.indexApp := by
  constructor
  · exact (router_fixed_order _ (by decide)).1 ⟨"/v0/x".toList, "y".toList, rfl⟩
  · refine (router_fixed_order ['/'] (by decide)).2.2.1 ?_ ?_ rfl
    · rintro ⟨a, b, hab⟩
      exact absurd ((ruleMatch_iff "/v1/".toList ['/'] (by decide)).mpr ⟨a, b, hab⟩)
        (by decide)
    · rintro ⟨a, b, hab⟩
      exact absurd ((ruleMatch_iff "/v0/".toList ['/'] (by decide)).mpr ⟨a, b, hab⟩)
        (by decide)

theorem appRoute_proxy (mM eM pM p sid tok sub : List Char)
    (h : appRoute mM eM pM p = some (HandlerKind.proxyH sid tok sub)) :
    scanProxy pM p = some (sid, tok, sub) := by
  unfold appRoute at h
  by_cases h1 : manifestMatch mM p = true
  · rw [if_pos h1] at h
    exact absurd h (by simp)
  · rw [if_neg h1] at h
    by_cases h2 : environMatch eM p = true
    · rw [if_pos h2] at h
      exact absurd h (by simp)
    · rw [if_neg h2] at h
      cases hs : scanProxy pM p with
      | none => rw [hs] at h; exact absurd h (by simp)
      | some g =>
          obtain ⟨s1, t1, u1⟩ := g
          rw [hs] at h
          injection h with hp
          injection hp with i1 i2 i3
          subst i1; subst i2; subst i3
          rfl

/-- C10: whenever routing selects the proxy forwarder, the extracted groups
are structurally well-formed — a non-empty `@`-free session id, a
non-empty slash-free token, a non-empty sub-path.  Contrapositively, a
proxy-shaped request whose decomposition would be degenerate in any of
these ways never matches a proxy route template, so it never reaches the
forwarder and `HOST.proxy_environ` is never invoked for it. -/
theorem proxy_dispatch_wellformed (p sid tok sub : List Char)
    (h : dispatch p = Dispatch.handler (HandlerKind.proxyH sid tok sub)) :
    sid ≠ [] ∧ '@' ∉ sid ∧ tok ≠ [] ∧ '/' ∉ tok ∧ sub ≠ [] := by
  unfold dispatch at h
  cases hr : routerRules p with
  | v1App =>
      rw [hr] at h
      cases ha : appRoute "/v1/manifest".toList "/v1/environs/".toList "/v1/proxy/".toList p with
      | none => rw [ha] at h; exact absurd h (by simp)
      | some hk =>
          rw [ha] at h
          injection h with hph
          subst hph
          exact scanProxy_some _ p sid tok sub (appRoute_proxy _ _ _ p sid tok sub ha)
  | v0App =>
      rw [hr] at h
      cases ha : appRoute "/v0/manifest".toList "/v0/environ/".toList "/v0/proxy/".toList p with
      | none => rw [ha] at h; exact absurd h (by simp)
      | some hk =>
          rw [ha] at h
          injection h with hph
          subst hph
          exact scanProxy_some _ p sid tok sub (appRoute_proxy _ _ _ p sid tok sub ha)
  | indexApp =>
      rw [hr] at h
      exact absurd h (by simp)
  | noRule =>
      rw [hr] at h
      exact absurd h (by simp)

/-- Witness for C10: the well-formed proxy path `/v1/proxy/a@b/c` reaches
the forwarder, and its groups satisfy all the structural constraints. -/
theorem proxy_dispatch_wellformed_witness :
    dispatch "/v1/proxy/a@b/c".toList
        = Dispatch.handler (HandlerKind.proxyH ['a'] ['b'] ['c'])
    ∧ (['a'] ≠ ([] : List Char) ∧ '@' ∉ ['a'] ∧ ['b'] ≠ ([] : List Char)
        ∧ '/' ∉ ['b'] ∧ ['c'] ≠ ([] : List Char)) :=
  ⟨by decide,
   proxy_dispatch_wellformed "/v1/proxy/a@b/c".toList ['a'] ['b'] ['c'] (by decide)⟩

/-- C8 counterexample: `OPTIONS`/`HEAD` on the unrouted path `/nope` is
answered by tornado's 404, not the 204 the claim asserts for every path. -/
theorem headOptions_unrouted_counterexample :
    (headOptionsResponse "6.0.4" [] "/nope".toList).status = 404
    ∧ (headOptionsResponse "6.0.4" [] "/nope".toList).status ≠ 204 :=
  ⟨by decide, by decide⟩

/-- C8 (amended): on every path that routing resolves to a handler, an
`OPTIONS` or `HEAD` request returns status 204 with an empty body and the
full default/CORS header set. -/
theorem headOptions_on_routed (tv : String) (reqHeaders : Headers) (p : List Char)
    (hk : HandlerKind) (hd : dispatch p = Dispatch.handler hk) :
    (headOptionsResponse tv reqHeaders p).status = 204
    ∧ (headOptionsResponse tv reqHeaders p).body = ""
    ∧ (headOptionsResponse tv reqHeaders p).headers
        = BaseHandler.set_default_headers tv reqHeaders
    ∧ ("Access-Control-Allow-Origin", hget reqHeaders "Origin" "")
        ∈ (headOptionsResponse tv reqHeaders p).headers
    ∧ ("Access-Control-Allow-Credentials", "true")
        ∈ (headOptionsResponse tv reqHeaders p).headers
    ∧ ("Access-Control-Allow-Methods", "GET, POST, PUT, DELETE, OPTIONS")
        ∈ (headOptionsResponse tv reqHeaders p).headers
    ∧ ("Access-Control-Allow-Headers", "Content-Type")
        ∈ (headOptionsResponse tv reqHeaders p).headers
    ∧ ("Access-Control-Max-Age", "86400")
        ∈ (headOptionsResponse tv reqHeaders p).headers := by
  unfold headOptionsResponse
  rw [hd]
  refine ⟨rfl, rfl, rfl, ?_, ?_, ?_, ?_, ?_⟩ <;>
    simp [BaseHandler.set_default_headers]

/-- Witness for C8's amended statement on the routed path `/v1/manifest`. -/
theorem headOptions_on_routed_witness :
    (headOptionsResponse "6.0.4" [("Origin", "https://a.example")] "/v1/manifest".toList).status
        = 204
    ∧ (headOptionsResponse "6.0.4" [("Origin", "https://a.example")] "/v1/manifest".toList).body
        = ""
    ∧ ("Access-Control-Allow-Origin", "https://a.example")
        ∈ (headOptionsResponse "6.0.4" [("Origin", "https://a.example")]
            "/v1/manifest".toList).headers := by
  have h := headOptions_on_routed "6.0.4" [("Origin", "https://a.example")]
      "/v1/manifest".toList HandlerKind.manifestH (by decide)
  refine ⟨h.1, h.2.1, ?_⟩
  have h4 := h.2.2.2.1
  simpa [hget] using h4

/-- C6 counterexample: a request whose `Origin` header is literally `"*"`
is echoed verbatim, so the response's `Access-Control-Allow-Origin` IS the
wildcard, contradicting the claim's unconditional "never `'*'`". -/
theorem cors_wildcard_counterexample :
    ("Access-Control-Allow-Origin", "*")
      ∈ BaseHandler.set_default_headers "6.0.4" [("Origin", "*")] := by
  decide

theorem hget_of_absent (hs : Headers) (name dflt : String)
    (h : ∀ v, (name, v) ∉ hs) : hget hs name dflt = dflt := by
  induction hs with
  | nil => rfl
  | cons kv t ih =>
      obtain ⟨k, v⟩ := kv
      have hk : ¬ (k = name) := by
        rintro rfl
        exact h v (List.mem_cons_self _ _)
      simp [hget, hk, ih (fun v2 hv2 => h v2 (List.mem_cons_of_mem _ hv2))]

/-- C6 (amended): `Access-Control-Allow-Origin` echoes the request's
`Origin` value — the empty string when the header is absent — and the
response carries `Access-Control-Allow-Credentials: true` and
`Access-Control-Max-Age: 86400`.  The echoed value is the wildcard only
when the request itself sent `Origin: *`: whenever the request's origin is
not `"*"`, no `Access-Control-Allow-Origin: *` header is emitted — the
server never substitutes a wildcard of its own. -/
theorem cors_echoes_origin (tv : String) (reqHeaders : Headers) :
    ("Access-Control-Allow-Origin", hget reqHeaders "Origin" "")
        ∈ BaseHandler.set_default_headers tv reqHeaders
    ∧ ((∀ v, ("Origin", v) ∉ reqHeaders) → hget reqHeaders "Origin" "" = "")
    ∧ ("Access-Control-Allow-Credentials", "true")
        ∈ BaseHandler.set_default_headers tv reqHeaders
    ∧ ("Access-Control-Max-Age", "86400")
        ∈ BaseHandler.set_default_headers tv reqHeaders
    ∧ (hget reqHeaders "Origin" "" ≠ "*" →
        ("Access-Control-Allow-Origin", "*")
          ∉ BaseHandler.set_default_headers tv reqHeaders) := by
  refine ⟨by simp [BaseHandler.set_default_headers],
    fun h => hget_of_absent reqHeaders "Origin" "" h,
    by simp [BaseHandler.set_default_headers],
    by simp [BaseHandler.set_default_headers], ?_⟩
  intro hne hmem
  simp only [BaseHandler.set_default_headers, List.mem_cons, List.not_mem_nil,
    or_false, Prod.mk.injEq] at hmem
  rcases hmem with h | h | h | h | h | h | h <;> simp_all

/-- Witness for C6's amended statement: `Origin: https://a.example` is
echoed and no wildcard is emitted; with no request headers the echoed
origin is the empty string. -/
theorem cors_echoes_origin_witness :
    ("Access-Control-Allow-Origin", "https://a.example")
        ∈ BaseHandler.set_default_headers "6.0.4" [("Origin", "https://a.example")]
    ∧ hget ([] : Headers) "Origin" "" = ""
    ∧ ("Access-Control-Allow-Origin", "*")
        ∉ BaseHandler.set_default_headers "6.0.4" [("Origin", "https://a.example")] := by
  refine ⟨?_, ?_, ?_⟩
  · have h := (cors_echoes_origin "6.0.4" [("Origin", "https://a.example")]).1
    simpa [hget] using h
  · exact (cors_echoes_origin "6.0.4" []).2.1 (fun v hv => by simp at hv)
  · exact (cors_echoes_origin "6.0.4" [("Origin", "https://a.example")]).2.2.2.2 (by decide)

end Bindilla
